import Mathlib

/-!
Verification of the account-pool and dispatch core of the URL-shortener
backend (src/app.py).  The Python classes `Account`, `URLResult` and
`BitlyAPIManager` are embedded as Lean structures and pure functions;
mutation of the shared pool is modelled by explicit state passing.
The upstream HTTP service is modelled as an oracle `Nat → Response`
mapping the index of each upstream call to the response it produces.
Wall-clock values are abstracted: the current calendar date is a `String`
parameter `today`, and the `timestamp` field of a result (produced by
`datetime.now().isoformat()` in the source) is modelled as `""` since no
verified property depends on it.
-/

namespace UrlShortener

/-- Embeds the Python dataclass `Account` (src/app.py lines 16-23). -/
structure Account where
  username : String
  password : String
  api_token : String
  daily_limit : Nat := 1000
  current_count : Nat := 0
  last_reset : String := ""
deriving Repr, DecidableEq

instance : Inhabited Account := ⟨⟨"", "", "", 0, 0, ""⟩⟩

/-- Embeds the Python dataclass `URLResult` (src/app.py lines 25-32). -/
structure URLResult where
  original_url : String
  short_url : String
  account_used : String
  timestamp : String
  success : Bool
  error_message : String := ""
deriving Repr, DecidableEq

instance : Inhabited URLResult :=
  ⟨{ original_url := "", short_url := "", account_used := "", timestamp := "",
     success := false, error_message := "" }⟩

/-- The mutable state of a `BitlyAPIManager`: the account list and the
rotation cursor (src/app.py lines 35-37). -/
structure ManagerState where
  accounts : List Account
  current_account_index : Nat
deriving Repr, DecidableEq

/-- Embeds `BitlyAPIManager.__init__`: stores the account list and sets the
cursor to 0 (src/app.py lines 35-39). -/
def initManager (accounts : List Account) : ManagerState :=
  { accounts := accounts, current_account_index := 0 }

/-- The lazy daily reset applied to each examined account
(src/app.py lines 127-130): if `last_reset` differs from today, zero the
counter and stamp today. -/
def resetIfStale (today : String) (a : Account) : Account :=
  if a.last_reset ≠ today then
    { a with current_count := 0, last_reset := today }
  else a

/-- The eligibility test of src/app.py line 132:
`account.current_count < account.daily_limit and account.api_token`
(a Python string is truthy iff non-empty). -/
def eligible (a : Account) : Bool :=
  decide (a.current_count < a.daily_limit) && decide (a.api_token ≠ "")

/-- Eligibility of an account after the lazy reset has been applied. -/
def eligAfterReset (today : String) (a : Account) : Bool :=
  eligible (resetIfStale today a)

/-- One iteration of the scan loop in `_get_available_account`
(src/app.py lines 123-130): read the account under the cursor, advance the
cursor modulo the pool size, and apply the lazy reset to that account. -/
def stepState (today : String) (st : ManagerState) : ManagerState :=
  { accounts := st.accounts.set st.current_account_index
      (resetIfStale today (st.accounts.getD st.current_account_index default)),
    current_account_index := (st.current_account_index + 1) % st.accounts.length }

/-- The scan loop of `_get_available_account` (src/app.py lines 123-135),
with `fuel` remaining iterations.  Returns the index of the selected
account (the Python code returns the aliased account object; the index
identifies it in the shared list), the final pool state, and the number of
accounts examined. -/
def gaaAux (today : String) : Nat → ManagerState → Option Nat × ManagerState × Nat
  | 0, _st => (none, _st, 0)
  | fuel+1, st =>
    if eligAfterReset today (st.accounts.getD st.current_account_index default) then
      (some st.current_account_index, stepState today st, 1)
    else
      let r := gaaAux today fuel (stepState today st)
      (r.1, r.2.1, r.2.2 + 1)

/-- Embeds `BitlyAPIManager._get_available_account` (src/app.py
lines 119-135): empty pool returns none, otherwise scan up to pool-size
accounts starting at the cursor. -/
def get_available_account (today : String) (st : ManagerState) :
    Option Nat × ManagerState × Nat :=
  if st.accounts.isEmpty then (none, st, 0)
  else gaaAux today st.accounts.length st

/-- Shape of the JSON body of an upstream 2xx response, as observed by the
code: `response.json()` may fail (malformed), succeed without a "link" key,
or yield a link string. -/
inductive Body where
  | malformed : Body
  | noLink : Body
  | withLink : String → Body
deriving Repr, DecidableEq

/-- One upstream response: an HTTP status with a body, or a transport-level
exception (timeout, connection error) carrying its message. -/
inductive Response where
  | http : Nat → Body → Response
  | exn : String → Response
deriving Repr, DecidableEq

/-- Stand-in for the text of the Python exception raised by
`response.json()` on a malformed body; no verified property depends on the
exact text. -/
def jsonDecodeErrorMsg : String := "Invalid JSON body"

/-- Stand-in for the text of the Python KeyError raised when the parsed
body lacks the "link" key (src/app.py line 70); no verified property
depends on the exact text. -/
def linkKeyErrorMsg : String := "KeyError: link"

/-- The post-success increment `account.current_count += 1`
(src/app.py line 69), applied through the alias into the shared list. -/
def bump (st : ManagerState) (i : Nat) : ManagerState :=
  { accounts := st.accounts.set i
      (let a := st.accounts.getD i default
       { a with current_count := a.current_count + 1 }),
    current_account_index := st.current_account_index }

/-- The retry loop of `shorten_url` (src/app.py lines 44-117) with `fuel`
attempts remaining out of `max_retries = 3`; the Python guard
`attempt < max_retries - 1` is exactly `0 < fuel` here.  Threads the pool
state and the count of upstream calls made so far (the oracle index).
Returns the result, the final pool state, and the final call count. -/
def shortenLoop (today url : String) (upstream : Nat → Response) :
    Nat → ManagerState → Nat → URLResult × ManagerState × Nat
  | 0, st, calls =>
    ({ original_url := url, short_url := "", account_used := "", timestamp := "",
       success := false, error_message := "Max retries exceeded" }, st, calls)
  | fuel+1, st, calls =>
    match get_available_account today st with
    | (none, st2, _) =>
      ({ original_url := url, short_url := "", account_used := "", timestamp := "",
         success := false, error_message := "No available accounts" }, st2, calls)
    | (some i, st2, _) =>
      let acc := st2.accounts.getD i default
      match upstream calls with
      | Response.http status body =>
        if status = 200 ∨ status = 201 then
          match body with
          | Body.malformed =>
            -- response.json() raises before the counter increment
            if 0 < fuel then shortenLoop today url upstream fuel st2 (calls+1)
            else ({ original_url := url, short_url := "", account_used := acc.username,
                    timestamp := "", success := false,
                    error_message := jsonDecodeErrorMsg }, st2, calls+1)
          | Body.noLink =>
            -- the increment at line 69 precedes the KeyError at line 70
            let st3 := bump st2 i
            if 0 < fuel then shortenLoop today url upstream fuel st3 (calls+1)
            else ({ original_url := url, short_url := "", account_used := acc.username,
                    timestamp := "", success := false,
                    error_message := linkKeyErrorMsg }, st3, calls+1)
          | Body.withLink link =>
            ({ original_url := url, short_url := link, account_used := acc.username,
               timestamp := "", success := true, error_message := "" },
             bump st2 i, calls+1)
        else if status = 429 then
          shortenLoop today url upstream fuel st2 (calls+1)
        else
          if 0 < fuel then shortenLoop today url upstream fuel st2 (calls+1)
          else ({ original_url := url, short_url := "", account_used := acc.username,
                  timestamp := "", success := false,
                  error_message := "API Error: " ++ toString status }, st2, calls+1)
      | Response.exn msg =>
        if 0 < fuel then shortenLoop today url upstream fuel st2 (calls+1)
        else ({ original_url := url, short_url := "", account_used := acc.username,
                timestamp := "", success := false, error_message := msg }, st2, calls+1)

/-- Embeds `BitlyAPIManager.shorten_url` (src/app.py lines 41-117):
the retry loop started with `max_retries = 3` attempts. -/
def shorten_url (today : String) (upstream : Nat → Response) (long_url : String)
    (st : ManagerState) (calls : Nat) : URLResult × ManagerState × Nat :=
  shortenLoop today long_url upstream 3 st calls

/-- The URL normalization applied by the route layer before dispatch
(src/app.py lines 192-198 and 227-229): strip whitespace and prepend
https scheme when no scheme is present. -/
def normalizeUrl (url : String) : String :=
  let u := url.trim
  if u.startsWith "http://" || u.startsWith "https://" then u
  else "https://" ++ u

/-- Embeds the loop of the `shorten_bulk` route (src/app.py lines 225-238):
each URL is normalized and passed to `shorten_url` in input order, with the
pool state and upstream-call counter threaded through. -/
def shorten_bulk (today : String) (upstream : Nat → Response) :
    List String → ManagerState → Nat → List URLResult × ManagerState × Nat
  | [], st, calls => ([], st, calls)
  | u :: rest, st, calls =>
    let r := shorten_url today upstream (normalizeUrl u) st calls
    let rs := shorten_bulk today upstream rest r.2.1 r.2.2
    (r.1 :: rs.1, rs.2.1, rs.2.2)

/-- The aggregate counts computed by the bulk route (src/app.py
lines 240-246): total, number of successes, and failures by subtraction. -/
structure BulkSummary where
  total : Nat
  successful : Nat
  failed : Nat
deriving Repr, DecidableEq

/-- Computes the aggregate counts from the per-URL results exactly as the
route does (src/app.py lines 240-246). -/
def bulkSummary (rs : List URLResult) : BulkSummary :=
  { total := rs.length,
    successful := (rs.filter (fun r => r.success)).length,
    failed := rs.length - (rs.filter (fun r => r.success)).length }

/-- Iterated selection: `iterSelect today st k` is the result of the
(k+1)-th consecutive call to `get_available_account` starting from `st`,
with no usage recorded between calls. -/
def iterSelect (today : String) (st : ManagerState) : Nat → Option Nat × ManagerState
  | 0 =>
    ((get_available_account today st).1, (get_available_account today st).2.1)
  | k+1 =>
    ((get_available_account today (iterSelect today st k).2).1,
     (get_available_account today (iterSelect today st k).2).2.1)

/-! ## Basic lemmas about list update, reset, and the scan step -/

theorem getD_set_eq (l : List Account) (i : Nat) (a : Account) (h : i < l.length) :
    (l.set i a).getD i default = a := by
  simp [List.getD_eq_getElem?_getD, List.getElem?_set_self, h]

theorem getD_set_ne (l : List Account) (i j : Nat) (a : Account) (h : i ≠ j) :
    (l.set i a).getD j default = l.getD j default := by
  simp [List.getD_eq_getElem?_getD, List.getElem?_set_ne, h]

theorem getD_default_of_le (l : List Account) (i : Nat) (h : l.length ≤ i) :
    l.getD i default = default := by
  simp [List.getD_eq_getElem?_getD, List.getElem?_eq_none h]

theorem resetIfStale_idem (today : String) (a : Account) :
    resetIfStale today (resetIfStale today a) = resetIfStale today a := by
  unfold resetIfStale
  split <;> simp

theorem resetIfStale_username (today : String) (a : Account) :
    (resetIfStale today a).username = a.username := by
  unfold resetIfStale
  split <;> rfl

theorem eligAfterReset_resetIfStale (today : String) (a : Account) :
    eligAfterReset today (resetIfStale today a) = eligAfterReset today a := by
  unfold eligAfterReset
  rw [resetIfStale_idem]

theorem eligAfterReset_default (today : String) :
    eligAfterReset today (default : Account) = false := by
  unfold eligAfterReset eligible resetIfStale
  split <;> simp <;> intro h <;>
    rw [show (default : Account).daily_limit = 0 from rfl] at h <;> omega

theorem stepState_length (today : String) (st : ManagerState) :
    (stepState today st).accounts.length = st.accounts.length := by
  simp [stepState]

theorem stepState_cursor (today : String) (st : ManagerState) :
    (stepState today st).current_account_index =
      (st.current_account_index + 1) % st.accounts.length := rfl

theorem stepState_getD (today : String) (st : ManagerState) (j : Nat) :
    (stepState today st).accounts.getD j default = st.accounts.getD j default ∨
    (stepState today st).accounts.getD j default =
      resetIfStale today (st.accounts.getD j default) := by
  by_cases hij : st.current_account_index = j
  · subst hij
    by_cases hlt : st.current_account_index < st.accounts.length
    · exact Or.inr (getD_set_eq _ _ _ hlt)
    · left
      simp only [stepState]
      rw [List.set_eq_of_length_le (Nat.le_of_not_lt hlt)]
  · exact Or.inl (getD_set_ne _ _ _ _ hij)

theorem stepState_getD_cursor (today : String) (st : ManagerState)
    (h : st.current_account_index < st.accounts.length) :
    (stepState today st).accounts.getD st.current_account_index default =
      resetIfStale today (st.accounts.getD st.current_account_index default) :=
  getD_set_eq _ _ _ h

/-! ## The evolution relation: a scan only applies lazy resets pointwise -/

/-- The relation between the account list before and after any number of
scan steps: same length, and each slot is either untouched or has had the
lazy reset applied. -/
def evolved (today : String) (l l2 : List Account) : Prop :=
  l2.length = l.length ∧
  ∀ j, l2.getD j default = l.getD j default ∨
       l2.getD j default = resetIfStale today (l.getD j default)

theorem evolved_refl (today : String) (l : List Account) : evolved today l l :=
  ⟨rfl, fun _ => Or.inl rfl⟩

theorem evolved_trans (today : String) (l1 l2 l3 : List Account)
    (h12 : evolved today l1 l2) (h23 : evolved today l2 l3) : evolved today l1 l3 := by
  refine ⟨h23.1.trans h12.1, fun j => ?_⟩
  rcases h23.2 j with h3 | h3 <;> rcases h12.2 j with h2 | h2 <;>
    rw [h3, h2] <;> simp [resetIfStale_idem]

theorem evolved_stepState (today : String) (st : ManagerState) :
    evolved today st.accounts (stepState today st).accounts :=
  ⟨stepState_length today st, stepState_getD today st⟩

theorem eligAfterReset_of_evolved (today : String) (l l2 : List Account)
    (h : evolved today l l2) (j : Nat) :
    eligAfterReset today (l2.getD j default) = eligAfterReset today (l.getD j default) := by
  rcases h.2 j with h2 | h2 <;> rw [h2]
  rw [eligAfterReset_resetIfStale]

theorem username_of_evolved (today : String) (l l2 : List Account)
    (h : evolved today l l2) (j : Nat) :
    (l2.getD j default).username = (l.getD j default).username := by
  rcases h.2 j with h2 | h2 <;> rw [h2]
  rw [resetIfStale_username]

/-! ## Properties of the selection scan -/

theorem gaaAux_evolved (today : String) :
    ∀ (fuel : Nat) (st : ManagerState),
      evolved today st.accounts (gaaAux today fuel st).2.1.accounts := by
  intro fuel
  induction fuel with
  | zero => intro st; exact evolved_refl today st.accounts
  | succ f ih =>
    intro st
    rw [gaaAux]
    cases h : eligAfterReset today (st.accounts.getD st.current_account_index default) with
    | true => simpa [h] using evolved_stepState today st
    | false =>
      simp only [h, Bool.false_eq_true, if_false]
      exact evolved_trans today _ _ _ (evolved_stepState today st) (ih (stepState today st))

theorem gaaAux_cursor (today : String) :
    ∀ (fuel : Nat) (st : ManagerState),
      st.current_account_index < st.accounts.length →
      (gaaAux today fuel st).2.1.current_account_index =
        (st.current_account_index + (gaaAux today fuel st).2.2) % st.accounts.length := by
  intro fuel
  induction fuel with
  | zero =>
    intro st hc
    simp [gaaAux, Nat.mod_eq_of_lt hc]
  | succ f ih =>
    intro st hc
    have hn : 0 < st.accounts.length := Nat.lt_of_le_of_lt (Nat.zero_le _) hc
    rw [gaaAux]
    cases h : eligAfterReset today (st.accounts.getD st.current_account_index default) with
    | true => simp [h, stepState_cursor]
    | false =>
      simp only [h, Bool.false_eq_true, if_false]
      have hc2 : (stepState today st).current_account_index <
          (stepState today st).accounts.length := by
        rw [stepState_cursor, stepState_length]
        exact Nat.mod_lt _ hn
      have := ih (stepState today st) hc2
      rw [stepState_length] at this
      rw [this, stepState_cursor, Nat.mod_add_mod]
      ring_nf

theorem gaaAux_cursor_lt (today : String) (fuel : Nat) (st : ManagerState)
    (hc : st.current_account_index < st.accounts.length) :
    (gaaAux today fuel st).2.1.current_account_index <
      (gaaAux today fuel st).2.1.accounts.length := by
  have hn : 0 < st.accounts.length := Nat.lt_of_le_of_lt (Nat.zero_le _) hc
  rw [gaaAux_cursor today fuel st hc, (gaaAux_evolved today fuel st).1]
  exact Nat.mod_lt _ hn

theorem gaaAux_none_examined (today : String) :
    ∀ (fuel : Nat) (st : ManagerState),
      (gaaAux today fuel st).1 = none → (gaaAux today fuel st).2.2 = fuel := by
  intro fuel
  induction fuel with
  | zero => intro st _; rfl
  | succ f ih =>
    intro st hnone
    rw [gaaAux] at hnone ⊢
    cases h : eligAfterReset today (st.accounts.getD st.current_account_index default) with
    | true => rw [h] at hnone; simp at hnone
    | false =>
      simp only [h, Bool.false_eq_true, if_false] at hnone ⊢
      exact congrArg (· + 1) (ih (stepState today st) hnone)

theorem gaaAux_some_elig (today : String) :
    ∀ (fuel : Nat) (st : ManagerState) (i : Nat),
      (gaaAux today fuel st).1 = some i →
      i < st.accounts.length ∧
      eligAfterReset today (st.accounts.getD i default) = true := by
  intro fuel
  induction fuel with
  | zero => intro st i h; simp [gaaAux] at h
  | succ f ih =>
    intro st i hsome
    rw [gaaAux] at hsome
    cases h : eligAfterReset today (st.accounts.getD st.current_account_index default) with
    | true =>
      rw [h] at hsome
      simp at hsome
      subst hsome
      refine ⟨?_, h⟩
      by_contra hge
      rw [getD_default_of_le _ _ (Nat.le_of_not_lt hge)] at h
      rw [eligAfterReset_default] at h
      exact Bool.false_ne_true h
    | false =>
      simp only [h, Bool.false_eq_true, if_false] at hsome
      obtain ⟨hlt, helig⟩ := ih (stepState today st) i hsome
      rw [stepState_length] at hlt
      refine ⟨hlt, ?_⟩
      rw [← helig]
      exact (eligAfterReset_of_evolved today _ _ (evolved_stepState today st) i).symm

theorem gaaAux_some_of_elig (today : String) :
    ∀ (fuel : Nat) (st : ManagerState),
      st.current_account_index < st.accounts.length →
      (∃ k, k < fuel ∧ eligAfterReset today
        (st.accounts.getD ((st.current_account_index + k) % st.accounts.length) default)
          = true) →
      ∃ i, (gaaAux today fuel st).1 = some i := by
  intro fuel
  induction fuel with
  | zero =>
    intro st _ ⟨k, hk, _⟩
    exact absurd hk (Nat.not_lt_zero k)
  | succ f ih =>
    intro st hc ⟨k, hk, helig⟩
    have hn : 0 < st.accounts.length := Nat.lt_of_le_of_lt (Nat.zero_le _) hc
    rw [gaaAux]
    cases h : eligAfterReset today (st.accounts.getD st.current_account_index default) with
    | true => exact ⟨st.current_account_index, by simp [h]⟩
    | false =>
      simp only [h, Bool.false_eq_true, if_false]
      have hc2 : (stepState today st).current_account_index <
          (stepState today st).accounts.length := by
        rw [stepState_cursor, stepState_length]
        exact Nat.mod_lt _ hn
      cases k with
      | zero =>
        rw [Nat.add_zero, Nat.mod_eq_of_lt hc] at helig
        rw [helig] at h
        exact absurd h (by simp)
      | succ m =>
        obtain ⟨i, hi⟩ := ih (stepState today st) hc2 ⟨m, Nat.lt_of_succ_lt_succ hk, by
          rw [stepState_cursor, stepState_length, Nat.mod_add_mod]
          rw [eligAfterReset_of_evolved today _ _ (evolved_stepState today st)]
          rw [show st.current_account_index + 1 + m = st.current_account_index + (m+1)
            from by ring]
          exact helig⟩
        exact ⟨i, by simpa using hi⟩

theorem gaaAux_examined_reset (today : String) :
    ∀ (fuel : Nat) (st : ManagerState),
      st.current_account_index < st.accounts.length →
      ∀ t, t < (gaaAux today fuel st).2.2 →
      (gaaAux today fuel st).2.1.accounts.getD
          ((st.current_account_index + t) % st.accounts.length) default =
        resetIfStale today (st.accounts.getD
          ((st.current_account_index + t) % st.accounts.length) default) := by
  intro fuel
  induction fuel with
  | zero =>
    intro st _ t ht
    simp [gaaAux] at ht
  | succ f ih =>
    intro st hc t ht
    have hn : 0 < st.accounts.length := Nat.lt_of_le_of_lt (Nat.zero_le _) hc
    rw [gaaAux] at ht ⊢
    cases h : eligAfterReset today (st.accounts.getD st.current_account_index default) with
    | true =>
      rw [h] at ht
      simp at ht
      subst ht
      rw [Nat.add_zero, Nat.mod_eq_of_lt hc]
      exact stepState_getD_cursor today st hc
    | false =>
      simp only [h, Bool.false_eq_true, if_false] at ht ⊢
      have hc2 : (stepState today st).current_account_index <
          (stepState today st).accounts.length := by
        rw [stepState_cursor, stepState_length]
        exact Nat.mod_lt _ hn
      cases t with
      | zero =>
        -- the slot under the cursor was reset by this step and is at most
        -- reset again by the remainder of the scan
        rw [Nat.add_zero, Nat.mod_eq_of_lt hc]
        rcases (gaaAux_evolved today f (stepState today st)).2
            st.current_account_index with h2 | h2 <;>
          rw [h2, stepState_getD_cursor today st hc]
        rw [resetIfStale_idem]
      | succ m =>
        have hm : m < (gaaAux today f (stepState today st)).2.2 :=
          Nat.lt_of_succ_lt_succ ht
        have := ih (stepState today st) hc2 m hm
        rw [stepState_cursor, stepState_length, Nat.mod_add_mod,
          show st.current_account_index + 1 + m = st.current_account_index + (m+1)
            from by ring] at this
        rw [this]
        rcases stepState_getD today st
            ((st.current_account_index + (m+1)) % st.accounts.length) with h2 | h2 <;>
          rw [h2]
        rw [resetIfStale_idem]

/-! ## Wrappers at the `get_available_account` level -/

theorem isEmpty_false_of_pos (l : List Account) (h : 0 < l.length) :
    l.isEmpty = false := by
  cases hl : l with
  | nil => rw [hl] at h; exact absurd h (by simp)
  | cons a t => rfl

theorem gaa_eq (today : String) (st : ManagerState) (hn : 0 < st.accounts.length) :
    get_available_account today st = gaaAux today st.accounts.length st := by
  simp [get_available_account, isEmpty_false_of_pos st.accounts hn]

theorem gaa_evolved (today : String) (st : ManagerState) :
    evolved today st.accounts (get_available_account today st).2.1.accounts := by
  by_cases hn : 0 < st.accounts.length
  · rw [gaa_eq today st hn]
    exact gaaAux_evolved today st.accounts.length st
  · have hl : st.accounts = [] := by
      cases hl : st.accounts with
      | nil => rfl
      | cons a t => rw [hl] at hn; exact absurd (by simp) hn
    unfold get_available_account
    rw [if_pos (by rw [hl]; rfl)]
    exact evolved_refl today st.accounts

theorem gaa_length (today : String) (st : ManagerState) :
    (get_available_account today st).2.1.accounts.length = st.accounts.length :=
  (gaa_evolved today st).1

theorem gaa_cursor_lt (today : String) (st : ManagerState)
    (hc : st.current_account_index < st.accounts.length) :
    (get_available_account today st).2.1.current_account_index <
      (get_available_account today st).2.1.accounts.length := by
  have hn : 0 < st.accounts.length := Nat.lt_of_le_of_lt (Nat.zero_le _) hc
  rw [gaa_eq today st hn]
  exact gaaAux_cursor_lt today st.accounts.length st hc

theorem gaa_some_elig (today : String) (st : ManagerState) (i : Nat)
    (h : (get_available_account today st).1 = some i) :
    i < st.accounts.length ∧
    eligAfterReset today (st.accounts.getD i default) = true := by
  by_cases hn : 0 < st.accounts.length
  · rw [gaa_eq today st hn] at h
    exact gaaAux_some_elig today st.accounts.length st i h
  · have hl : st.accounts = [] := by
      cases hl : st.accounts with
      | nil => rfl
      | cons a t => rw [hl] at hn; exact absurd (by simp) hn
    unfold get_available_account at h
    rw [if_pos (by rw [hl]; rfl)] at h
    simp at h

/-- Existence of an eligible account (after lazy reset) somewhere in the
pool: the condition under which the scan must succeed. -/
abbrev hasElig (today : String) (st : ManagerState) : Prop :=
  ∃ j, j < st.accounts.length ∧
    eligAfterReset today (st.accounts.getD j default) = true

theorem gaa_some_of_hasElig (today : String) (st : ManagerState)
    (hc : st.current_account_index < st.accounts.length)
    (h : hasElig today st) :
    ∃ i, (get_available_account today st).1 = some i := by
  obtain ⟨j, hj, helig⟩ := h
  have hn : 0 < st.accounts.length := Nat.lt_of_le_of_lt (Nat.zero_le _) hj
  rw [gaa_eq today st hn]
  refine gaaAux_some_of_elig today st.accounts.length st hc
    ⟨(j + st.accounts.length - st.current_account_index) % st.accounts.length,
     Nat.mod_lt _ hn, ?_⟩
  rw [Nat.add_mod_mod,
    show st.current_account_index +
        (j + st.accounts.length - st.current_account_index) = j + st.accounts.length
      from by omega,
    Nat.add_mod_right, Nat.mod_eq_of_lt hj]
  exact helig

theorem hasElig_of_evolved (today : String) (st st2 : ManagerState)
    (h : evolved today st.accounts st2.accounts) (he : hasElig today st) :
    hasElig today st2 := by
  obtain ⟨j, hj, helig⟩ := he
  exact ⟨j, h.1 ▸ hj, (eligAfterReset_of_evolved today _ _ h j).trans helig⟩

theorem gaa_hasElig (today : String) (st : ManagerState) (he : hasElig today st) :
    hasElig today (get_available_account today st).2.1 :=
  hasElig_of_evolved today st _ (gaa_evolved today st) he

theorem gaa_username (today : String) (st : ManagerState) (j : Nat) :
    ((get_available_account today st).2.1.accounts.getD j default).username =
      (st.accounts.getD j default).username :=
  username_of_evolved today _ _ (gaa_evolved today st) j

theorem gaa_first_elig (today : String) (st : ManagerState)
    (hn : 0 < st.accounts.length)
    (h : eligAfterReset today (st.accounts.getD st.current_account_index default)
        = true) :
    get_available_account today st =
      (some st.current_account_index, stepState today st, 1) := by
  obtain ⟨m, hm⟩ : ∃ m, st.accounts.length = m + 1 :=
    ⟨st.accounts.length - 1, by omega⟩
  rw [gaa_eq today st hn, hm, gaaAux, h]
  simp

theorem gaa_none_cursor (today : String) (st : ManagerState)
    (hc : st.current_account_index < st.accounts.length)
    (h : (get_available_account today st).1 = none) :
    (get_available_account today st).2.1.current_account_index =
      st.current_account_index := by
  have hn : 0 < st.accounts.length := Nat.lt_of_le_of_lt (Nat.zero_le _) hc
  rw [gaa_eq today st hn] at h ⊢
  rw [gaaAux_cursor today st.accounts.length st hc,
    gaaAux_none_examined today st.accounts.length st h,
    Nat.add_mod_right, Nat.mod_eq_of_lt hc]

/-! ## State invariants preserved by the dispatcher -/

/-- The reachable-state invariant of the pool: the rotation cursor is in
bounds (which also forces the pool to be non-empty). -/
abbrev Inv (st : ManagerState) : Prop :=
  st.current_account_index < st.accounts.length

theorem gaa_Inv (today : String) (st : ManagerState) (h : Inv st) :
    Inv (get_available_account today st).2.1 :=
  gaa_cursor_lt today st h

theorem bump_length (st : ManagerState) (i : Nat) :
    (bump st i).accounts.length = st.accounts.length := by
  simp [bump]

theorem bump_cursor (st : ManagerState) (i : Nat) :
    (bump st i).current_account_index = st.current_account_index := rfl

theorem bump_Inv (st : ManagerState) (i : Nat) (h : Inv st) : Inv (bump st i) := by
  unfold Inv at *
  rw [bump_cursor, bump_length]
  exact h

theorem bump_username (st : ManagerState) (i j : Nat) :
    ((bump st i).accounts.getD j default).username =
      (st.accounts.getD j default).username := by
  by_cases hij : i = j
  · subst hij
    by_cases hlt : i < st.accounts.length
    · unfold bump
      rw [getD_set_eq _ _ _ hlt]
    · unfold bump
      rw [List.set_eq_of_length_le (Nat.le_of_not_lt hlt)]
  · exact congrArg Account.username (getD_set_ne _ _ _ _ hij)

/-! ## Step lemmas for the retry loop -/

theorem shortenLoop_none (today url : String) (upstream : Nat → Response)
    (fuel : Nat) (st : ManagerState) (calls : Nat)
    (h : (get_available_account today st).1 = none) :
    shortenLoop today url upstream (fuel+1) st calls =
      ({ original_url := url, short_url := "", account_used := "", timestamp := "",
         success := false, error_message := "No available accounts" },
       (get_available_account today st).2.1, calls) := by
  rw [shortenLoop]
  rcases hg : get_available_account today st with ⟨r, st2, e⟩
  rw [hg] at h
  simp only at h
  subst h
  rfl

theorem shortenLoop_429 (today url : String) (upstream : Nat → Response)
    (fuel : Nat) (st : ManagerState) (calls : Nat) (i : Nat) (b : Body)
    (hg : (get_available_account today st).1 = some i)
    (hup : upstream calls = Response.http 429 b) :
    shortenLoop today url upstream (fuel+1) st calls =
      shortenLoop today url upstream fuel (get_available_account today st).2.1
        (calls+1) := by
  rw [shortenLoop]
  rcases hgg : get_available_account today st with ⟨r, st2, e⟩
  rw [hgg] at hg
  simp only at hg
  subst hg
  rw [hup]
  simp

theorem shortenLoop_retry_err (today url : String) (upstream : Nat → Response)
    (fuel : Nat) (st : ManagerState) (calls : Nat) (i : Nat) (code : Nat) (b : Body)
    (hg : (get_available_account today st).1 = some i)
    (hup : upstream calls = Response.http code b)
    (h2xx : ¬(code = 200 ∨ code = 201)) (h429 : code ≠ 429) (hf : 0 < fuel) :
    shortenLoop today url upstream (fuel+1) st calls =
      shortenLoop today url upstream fuel (get_available_account today st).2.1
        (calls+1) := by
  rw [shortenLoop]
  rcases hgg : get_available_account today st with ⟨r, st2, e⟩
  rw [hgg] at hg
  simp only at hg
  subst hg
  rw [hup]
  simp [h2xx, h429, hf]

theorem shortenLoop_last_err (today url : String) (upstream : Nat → Response)
    (st : ManagerState) (calls : Nat) (i : Nat) (code : Nat) (b : Body)
    (hg : (get_available_account today st).1 = some i)
    (hup : upstream calls = Response.http code b)
    (h2xx : ¬(code = 200 ∨ code = 201)) (h429 : code ≠ 429) :
    shortenLoop today url upstream 1 st calls =
      ({ original_url := url, short_url := "",
         account_used :=
           ((get_available_account today st).2.1.accounts.getD i default).username,
         timestamp := "", success := false,
         error_message := "API Error: " ++ toString code },
       (get_available_account today st).2.1, calls+1) := by
  rw [show (1 : Nat) = 0 + 1 from rfl, shortenLoop]
  rcases hgg : get_available_account today st with ⟨r, st2, e⟩
  rw [hgg] at hg
  simp only at hg
  subst hg
  rw [hup]
  simp [h2xx, h429]

theorem shortenLoop_original (today url : String) (upstream : Nat → Response) :
    ∀ (fuel : Nat) (st : ManagerState) (calls : Nat),
      (shortenLoop today url upstream fuel st calls).1.original_url = url := by
  intro fuel
  induction fuel with
  | zero => intro st calls; rfl
  | succ f ih =>
    intro st calls
    rw [shortenLoop]
    rcases hg : get_available_account today st with ⟨r, st2, e⟩
    cases r with
    | none => rfl
    | some i =>
      cases hup : upstream calls with
      | http status body =>
        by_cases h2xx : status = 200 ∨ status = 201
        · simp only [h2xx, if_true]
          cases body with
          | malformed =>
            by_cases hf : 0 < f
            · simp only [hf, if_true]; exact ih st2 (calls+1)
            · simp only [hf, if_false]
          | noLink =>
            by_cases hf : 0 < f
            · simp only [hf, if_true]; exact ih _ (calls+1)
            · simp only [hf, if_false]
          | withLink link => rfl
        · by_cases h429 : status = 429
          · simp only [h2xx, h429, if_false, if_true]
            exact ih st2 (calls+1)
          · simp only [h2xx, h429, if_false]
            by_cases hf : 0 < f
            · simp only [hf, if_true]; exact ih st2 (calls+1)
            · simp only [hf, if_false]
      | exn msg =>
        by_cases hf : 0 < f
        · simp only [hf, if_true]; exact ih st2 (calls+1)
        · simp only [hf, if_false]

/-- All accounts in the pool carry a non-empty username. -/
abbrev UserOK (st : ManagerState) : Prop :=
  ∀ j, j < st.accounts.length → (st.accounts.getD j default).username ≠ ""

theorem gaa_UserOK (today : String) (st : ManagerState) (h : UserOK st) :
    UserOK (get_available_account today st).2.1 := by
  intro j hj
  rw [gaa_username]
  exact h j (by rw [← gaa_length today st]; exact hj)

theorem bump_UserOK (st : ManagerState) (i : Nat) (h : UserOK st) :
    UserOK (bump st i) := by
  intro j hj
  rw [bump_username]
  exact h j (by rw [← bump_length st i]; exact hj)

theorem shortenLoop_master (today url : String) (upstream : Nat → Response) :
    ∀ (fuel : Nat) (st : ManagerState) (calls : Nat), Inv st →
      Inv (shortenLoop today url upstream fuel st calls).2.1 ∧
      (UserOK st →
        UserOK (shortenLoop today url upstream fuel st calls).2.1 ∧
        ((shortenLoop today url upstream fuel st calls).1.account_used = "" →
          (shortenLoop today url upstream fuel st calls).1.error_message =
            "No available accounts" ∨
          (shortenLoop today url upstream fuel st calls).1.error_message =
            "Max retries exceeded")) := by
  intro fuel
  induction fuel with
  | zero =>
    intro st calls hInv
    exact ⟨hInv, fun hu => ⟨hu, fun _ => Or.inr rfl⟩⟩
  | succ f ih =>
    intro st calls hInv
    have hInv2 : Inv (get_available_account today st).2.1 := gaa_Inv today st hInv
    have hu2 : UserOK st → UserOK (get_available_account today st).2.1 :=
      gaa_UserOK today st
    rw [shortenLoop]
    rcases hg : get_available_account today st with ⟨r, st2, e⟩
    rw [hg] at hInv2 hu2
    simp only at hInv2 hu2
    cases r with
    | none => exact ⟨hInv2, fun hu => ⟨hu2 hu, fun _ => Or.inl rfl⟩⟩
    | some i =>
      -- the selected index is a real slot with a real (non-reset) username
      have hielig := gaa_some_elig today st i (by rw [hg])
      have hacc_user : UserOK st →
          ((st2.accounts.getD i default).username ≠ "") := by
        intro hu
        have := username_of_evolved today st.accounts st2.accounts
          (by have := gaa_evolved today st; rwa [hg] at this) i
        rw [this]
        exact hu i hielig.1
      cases hup : upstream calls with
      | http status body =>
        by_cases h2xx : status = 200 ∨ status = 201
        · simp only [h2xx, if_true]
          cases body with
          | malformed =>
            by_cases hf : 0 < f
            · simp only [hf, if_true]
              obtain ⟨hI, hU⟩ := ih st2 (calls+1) hInv2
              exact ⟨hI, fun hu => hU (hu2 hu)⟩
            · simp only [hf, if_false]
              exact ⟨hInv2, fun hu => ⟨hu2 hu, fun habs => absurd habs (hacc_user hu)⟩⟩
          | noLink =>
            by_cases hf : 0 < f
            · simp only [hf, if_true]
              obtain ⟨hI, hU⟩ := ih (bump st2 i) (calls+1) (bump_Inv st2 i hInv2)
              exact ⟨hI, fun hu => hU (bump_UserOK st2 i (hu2 hu))⟩
            · simp only [hf, if_false]
              refine ⟨bump_Inv st2 i hInv2, fun hu => ?_⟩
              exact ⟨bump_UserOK st2 i (hu2 hu),
                fun habs => absurd habs (hacc_user hu)⟩
          | withLink link =>
            refine ⟨bump_Inv st2 i hInv2, fun hu => ?_⟩
            exact ⟨bump_UserOK st2 i (hu2 hu),
              fun habs => absurd habs (hacc_user hu)⟩
        · by_cases h429 : status = 429
          · subst h429
            dsimp only
            rw [if_neg (show ¬((429:Nat) = 200 ∨ (429:Nat) = 201) from by decide),
              if_pos (show (429:Nat) = 429 from rfl)]
            obtain ⟨hI, hU⟩ := ih st2 (calls+1) hInv2
            exact ⟨hI, fun hu => hU (hu2 hu)⟩
          · simp only [h2xx, h429, if_false]
            by_cases hf : 0 < f
            · simp only [hf, if_true]
              obtain ⟨hI, hU⟩ := ih st2 (calls+1) hInv2
              exact ⟨hI, fun hu => hU (hu2 hu)⟩
            · simp only [hf, if_false]
              exact ⟨hInv2, fun hu => ⟨hu2 hu, fun habs => absurd habs (hacc_user hu)⟩⟩
      | exn msg =>
        by_cases hf : 0 < f
        · simp only [hf, if_true]
          obtain ⟨hI, hU⟩ := ih st2 (calls+1) hInv2
          exact ⟨hI, fun hu => hU (hu2 hu)⟩
        · simp only [hf, if_false]
          exact ⟨hInv2, fun hu => ⟨hu2 hu, fun habs => absurd habs (hacc_user hu)⟩⟩

/-! ## Round-robin iteration -/

/-- Every account of the pool is eligible after the lazy reset. -/
abbrev AllElig (today : String) (st : ManagerState) : Prop :=
  ∀ j, j < st.accounts.length →
    eligAfterReset today (st.accounts.getD j default) = true

theorem stepState_AllElig (today : String) (st : ManagerState)
    (h : AllElig today st) : AllElig today (stepState today st) := by
  intro j hj
  rw [stepState_length] at hj
  rcases stepState_getD today st j with h2 | h2 <;> rw [h2]
  · exact h j hj
  · rw [eligAfterReset_resetIfStale]
    exact h j hj

theorem iterSelect_spec (today : String) (st : ManagerState)
    (hc : Inv st) (hall : AllElig today st) :
    ∀ k, (iterSelect today st k).1 =
        some ((st.current_account_index + k) % st.accounts.length) ∧
      (iterSelect today st k).2.accounts.length = st.accounts.length ∧
      (iterSelect today st k).2.current_account_index =
        (st.current_account_index + k + 1) % st.accounts.length ∧
      AllElig today (iterSelect today st k).2 := by
  have hn : 0 < st.accounts.length := Nat.lt_of_le_of_lt (Nat.zero_le _) hc
  intro k
  induction k with
  | zero =>
    have h0 := gaa_first_elig today st hn (hall _ hc)
    refine ⟨?_, ?_, ?_, ?_⟩
    · rw [iterSelect, h0, Nat.add_zero, Nat.mod_eq_of_lt hc]
    · rw [iterSelect, h0]
      exact stepState_length today st
    · rw [iterSelect, h0, Nat.add_zero]
      exact stepState_cursor today st
    · rw [iterSelect, h0]
      exact stepState_AllElig today st hall
  | succ m ihm =>
    obtain ⟨hsel, hlen, hcur, hmall⟩ := ihm
    have hn2 : 0 < (iterSelect today st m).2.accounts.length := by rw [hlen]; exact hn
    have hc2 : Inv (iterSelect today st m).2 := by
      unfold Inv
      rw [hlen, hcur]
      exact Nat.mod_lt _ hn
    have h0 := gaa_first_elig today (iterSelect today st m).2 hn2 (hmall _ hc2)
    refine ⟨?_, ?_, ?_, ?_⟩
    · rw [iterSelect, h0]
      simp only
      rw [hcur, Nat.add_assoc]
    · rw [iterSelect, h0]
      simp only
      rw [stepState_length, hlen]
    · rw [iterSelect, h0]
      simp only
      rw [stepState_cursor, hcur, hlen, Nat.mod_add_mod,
        Nat.add_assoc st.current_account_index m 1]
    · rw [iterSelect, h0]
      exact stepState_AllElig today _ hmall

/-! ## Bulk processing lemmas -/

theorem shorten_bulk_length (today : String) (upstream : Nat → Response) :
    ∀ (urls : List String) (st : ManagerState) (calls : Nat),
      (shorten_bulk today upstream urls st calls).1.length = urls.length := by
  intro urls
  induction urls with
  | nil => intro st calls; rfl
  | cons u rest ih =>
    intro st calls
    rw [shorten_bulk]
    simp only [List.length_cons]
    rw [ih]

theorem shorten_bulk_original (today : String) (upstream : Nat → Response) :
    ∀ (urls : List String) (st : ManagerState) (calls : Nat) (k : Nat),
      k < urls.length →
      ((shorten_bulk today upstream urls st calls).1.getD k default).original_url =
        normalizeUrl (urls.getD k "") := by
  intro urls
  induction urls with
  | nil => intro st calls k hk; exact absurd hk (by simp)
  | cons u rest ih =>
    intro st calls k hk
    rw [shorten_bulk]
    cases k with
    | zero =>
      simp only [List.getD_cons_zero]
      exact shortenLoop_original today (normalizeUrl u) upstream 3 st calls
    | succ m =>
      simp only [List.getD_cons_succ]
      exact ih _ _ m (Nat.lt_of_succ_lt_succ hk)

/-! ## Concrete fixtures used in witnesses and counterexamples -/

/-- A fixed calendar date standing for "today" in concrete runs. -/
def d0 : String := "2026-10-12"

def acct1 : Account :=
  { username := "alice", password := "pw", api_token := "tokA", daily_limit := 5,
    current_count := 0, last_reset := "" }

def acct2 : Account :=
  { username := "bob", password := "pw", api_token := "tokB", daily_limit := 5,
    current_count := 0, last_reset := "" }

def acct3 : Account :=
  { username := "carol", password := "pw", api_token := "tokC", daily_limit := 5,
    current_count := 0, last_reset := "" }

/-- An account that hit its daily limit yesterday. -/
def acctExhStale : Account :=
  { username := "dave", password := "pw", api_token := "tokD", daily_limit := 5,
    current_count := 5, last_reset := "2026-10-11" }

/-- An account with an empty token: permanently ineligible, but still
examined (and hence reset) by the scan. -/
def acctNoTok : Account :=
  { username := "erin", password := "pw", api_token := "", daily_limit := 5,
    current_count := 3, last_reset := "2026-10-11" }

def pool1 : ManagerState := initManager [acct1]

def pool3 : ManagerState :=
  { accounts := [acct1, acct2, acct3], current_account_index := 1 }

def poolExh : ManagerState := initManager [acctExhStale]

def poolC7 : ManagerState := initManager [acctNoTok, acct1]

def poolNoTok : ManagerState := initManager [acctNoTok]

def poolEmpty : ManagerState := initManager []

/-! ## Claim theorems -/

/-- Claim C6: whenever `selectAvailable` returns none, `shorten` returns
immediately with success=false, errorMessage "No available accounts" and
empty accountUsed, making no upstream call and consuming no further
attempts regardless of remaining budget; and on an empty pool
`selectAvailable` always returns none. -/
theorem c6_no_available_accounts :
    (∀ (today url : String) (upstream : Nat → Response) (fuel : Nat)
        (st : ManagerState) (calls : Nat),
      (get_available_account today st).1 = none →
      shortenLoop today url upstream (fuel+1) st calls =
        ({ original_url := url, short_url := "", account_used := "",
           timestamp := "", success := false,
           error_message := "No available accounts" },
         (get_available_account today st).2.1, calls)) ∧
    (∀ (today : String) (st : ManagerState), st.accounts = [] →
      (get_available_account today st).1 = none) := by
  constructor
  · intro today url upstream fuel st calls h
    exact shortenLoop_none today url upstream fuel st calls h
  · intro today st h
    unfold get_available_account
    rw [if_pos (by rw [h]; rfl)]

theorem c6_witness :
    shortenLoop d0 "https://x.org" (fun _ => Response.exn "boom") 3 poolEmpty 5 =
      ({ original_url := "https://x.org", short_url := "", account_used := "",
         timestamp := "", success := false,
         error_message := "No available accounts" }, poolEmpty, 5) ∧
    (get_available_account d0 poolEmpty).1 = none :=
  ⟨c6_no_available_accounts.1 d0 "https://x.org" (fun _ => Response.exn "boom")
      2 poolEmpty 5 (by decide),
   c6_no_available_accounts.2 d0 poolEmpty rfl⟩

/-- Claim C7: every account the cursor passes during a `selectAvailable`
call — slot (cursor + t) mod poolSize for each t below the number of
examined accounts — has the lazy reset applied to it in the resulting
state, even when it is not the account returned: its stored value becomes
`resetIfStale today` of the old value, so if its stored date differed from
today its counter is now 0 and its date is now today. -/
theorem c7_lazy_reset_examined (today : String) (st : ManagerState)
    (hc : Inv st) (t : Nat)
    (ht : t < (get_available_account today st).2.2) :
    (get_available_account today st).2.1.accounts.getD
        ((st.current_account_index + t) % st.accounts.length) default =
      resetIfStale today (st.accounts.getD
        ((st.current_account_index + t) % st.accounts.length) default) ∧
    ((st.accounts.getD
        ((st.current_account_index + t) % st.accounts.length) default).last_reset
        ≠ today →
      ((get_available_account today st).2.1.accounts.getD
        ((st.current_account_index + t) % st.accounts.length) default).current_count
          = 0 ∧
      ((get_available_account today st).2.1.accounts.getD
        ((st.current_account_index + t) % st.accounts.length) default).last_reset
          = today) := by
  have hn : 0 < st.accounts.length := Nat.lt_of_le_of_lt (Nat.zero_le _) hc
  rw [gaa_eq today st hn] at ht ⊢
  have h1 := gaaAux_examined_reset today st.accounts.length st hc t ht
  refine ⟨h1, fun hstale => ?_⟩
  rw [h1]
  unfold resetIfStale
  rw [if_pos hstale]
  exact ⟨rfl, rfl⟩

theorem c7_witness :
    (get_available_account d0 poolC7).1 = some 1 ∧
    ((get_available_account d0 poolC7).2.1.accounts.getD 0 default).current_count
      = 0 ∧
    ((get_available_account d0 poolC7).2.1.accounts.getD 0 default).last_reset
      = d0 :=
  ⟨by decide,
   (c7_lazy_reset_examined d0 poolC7 (by decide) 0 (by decide)).2 (by decide)⟩

/-- Claim C8: an account whose usageCount has reached its dailyLimit and
whose lastResetDate is the current date is never the account returned by
`selectAvailable`: if it is selected while at quota, its stored date must
differ from today (so the lazy reset re-opened it). -/
theorem c8_quota_exhausted_not_selected (today : String) (st : ManagerState)
    (i : Nat) (hsel : (get_available_account today st).1 = some i)
    (hfull : (st.accounts.getD i default).daily_limit ≤
      (st.accounts.getD i default).current_count) :
    (st.accounts.getD i default).last_reset ≠ today := by
  intro heq
  obtain ⟨hi, helig⟩ := gaa_some_elig today st i hsel
  have hlt : (st.accounts.getD i default).current_count <
      (st.accounts.getD i default).daily_limit := by
    unfold eligAfterReset eligible resetIfStale at helig
    rw [if_neg (not_not_intro heq)] at helig
    simp at helig
    rw [List.getD_eq_getElem?_getD]
    exact helig.1
  omega

theorem c8_witness :
    (get_available_account d0 poolExh).1 = some 0 ∧
    (poolExh.accounts.getD 0 default).last_reset ≠ d0 :=
  ⟨by decide, c8_quota_exhausted_not_selected d0 poolExh 0 (by decide) (by decide)⟩

/-- Claim C10: the rotation cursor is 0 at construction (and in bounds for
a non-empty pool), stays in bounds across `selectAvailable` and across the
whole retry loop of `shorten`, and a `selectAvailable` call that returns
none advances the cursor exactly poolSize times modulo poolSize, leaving it
at its starting position. -/
theorem c10_cursor_in_bounds (today url : String) (upstream : Nat → Response) :
    (∀ accounts : List Account,
      (initManager accounts).current_account_index = 0 ∧
      (accounts ≠ [] → Inv (initManager accounts))) ∧
    (∀ st : ManagerState, Inv st → Inv (get_available_account today st).2.1) ∧
    (∀ (fuel : Nat) (st : ManagerState) (calls : Nat), Inv st →
      Inv (shortenLoop today url upstream fuel st calls).2.1) ∧
    (∀ st : ManagerState, Inv st → (get_available_account today st).1 = none →
      (get_available_account today st).2.1.current_account_index =
        st.current_account_index ∧
      (get_available_account today st).2.2 = st.accounts.length) := by
  refine ⟨?_, ?_, ?_, ?_⟩
  · intro accounts
    refine ⟨rfl, fun h => ?_⟩
    unfold Inv initManager
    simpa [List.length_pos] using h
  · intro st h
    exact gaa_Inv today st h
  · intro fuel st calls h
    exact (shortenLoop_master today url upstream fuel st calls h).1
  · intro st h hnone
    refine ⟨gaa_none_cursor today st h hnone, ?_⟩
    have hn : 0 < st.accounts.length := Nat.lt_of_le_of_lt (Nat.zero_le _) h
    rw [gaa_eq today st hn] at hnone ⊢
    exact gaaAux_none_examined today st.accounts.length st hnone

theorem c10_witness :
    Inv (get_available_account d0 pool3).2.1 ∧
    (get_available_account d0 poolNoTok).2.1.current_account_index =
      poolNoTok.current_account_index :=
  ⟨(c10_cursor_in_bounds d0 "https://x.org" (fun _ => Response.exn "e")).2.1
      pool3 (by decide),
   ((c10_cursor_in_bounds d0 "https://x.org" (fun _ => Response.exn "e")).2.2.2
      poolNoTok (by decide) (by decide)).1⟩

/-- Claim C4: with every account of the pool eligible (after any lazy
reset) and the cursor in bounds, consecutive `selectAvailable` calls with
no usage recorded between them return the slots in cyclic order starting
from the cursor; within one full round of poolSize calls no slot repeats,
and whenever the pool has more than one account two back-to-back
selections differ. -/
theorem c4_round_robin_fairness (today : String) (st : ManagerState)
    (hc : Inv st) (hall : AllElig today st) :
    (∀ k, (iterSelect today st k).1 =
      some ((st.current_account_index + k) % st.accounts.length)) ∧
    (∀ k1 k2, k1 < st.accounts.length → k2 < st.accounts.length →
      (iterSelect today st k1).1 = (iterSelect today st k2).1 → k1 = k2) ∧
    (1 < st.accounts.length → ∀ k,
      (iterSelect today st k).1 ≠ (iterSelect today st (k+1)).1) := by
  have hsel := fun k => (iterSelect_spec today st hc hall k).1
  refine ⟨hsel, ?_, ?_⟩
  · intro k1 k2 h1 h2 heq
    rw [hsel k1, hsel k2] at heq
    have heq2 : (st.current_account_index + k1) % st.accounts.length =
        (st.current_account_index + k2) % st.accounts.length :=
      Option.some.inj heq
    have h3 : k1 % st.accounts.length = k2 % st.accounts.length :=
      Nat.ModEq.add_left_cancel rfl heq2
    rwa [Nat.mod_eq_of_lt h1, Nat.mod_eq_of_lt h2] at h3
  · intro hn1 k heq
    rw [hsel k, hsel (k+1)] at heq
    have heq2 : (st.current_account_index + k) % st.accounts.length =
        (st.current_account_index + (k+1)) % st.accounts.length :=
      Option.some.inj heq
    have h3 : k ≡ k + 1 [MOD st.accounts.length] :=
      Nat.ModEq.add_left_cancel rfl heq2
    have h4 : st.accounts.length ∣ (k + 1 - k) :=
      (Nat.modEq_iff_dvd' (Nat.le_succ k)).mp h3
    rw [show k + 1 - k = 1 from by omega] at h4
    have h5 := Nat.le_of_dvd Nat.one_pos h4
    omega

theorem c4_witness :
    (iterSelect d0 pool3 0).1 = some 1 ∧
    (iterSelect d0 pool3 1).1 = some 2 ∧
    (iterSelect d0 pool3 2).1 = some 0 ∧
    (iterSelect d0 pool3 0).1 ≠ (iterSelect d0 pool3 1).1 :=
  ⟨(c4_round_robin_fairness d0 pool3 (by decide) (by decide)).1 0,
   (c4_round_robin_fairness d0 pool3 (by decide) (by decide)).1 1,
   (c4_round_robin_fairness d0 pool3 (by decide) (by decide)).1 2,
   (c4_round_robin_fairness d0 pool3 (by decide) (by decide)).2.2 (by decide) 0⟩

/-- Claim C5: on a pool whose cursor is in bounds and which contains an
eligible account, with an upstream that always responds HTTP 500,
`shorten` makes exactly 3 upstream calls and returns a failure whose
errorMessage names status 500 and whose accountUsed is the username of the
account selected on the third (last) attempt. -/
theorem c5_attempt_budget_500 (today url : String) (b : Nat → Body)
    (st : ManagerState) (hc : Inv st) (he : hasElig today st) :
    (shorten_url today (fun k => Response.http 500 (b k)) url st 0).1.success
      = false ∧
    (shorten_url today (fun k => Response.http 500 (b k)) url st 0).1.error_message
      = "API Error: 500" ∧
    (shorten_url today (fun k => Response.http 500 (b k)) url st 0).2.2 = 3 ∧
    ∃ i, (iterSelect today st 2).1 = some i ∧
      (shorten_url today (fun k => Response.http 500 (b k)) url st 0).1.account_used
        = (st.accounts.getD i default).username := by
  have hc1 : Inv (get_available_account today st).2.1 := gaa_Inv today st hc
  have he1 : hasElig today (get_available_account today st).2.1 :=
    gaa_hasElig today st he
  have hc2 : Inv (get_available_account today
      (get_available_account today st).2.1).2.1 := gaa_Inv today _ hc1
  have he2 : hasElig today (get_available_account today
      (get_available_account today st).2.1).2.1 := gaa_hasElig today _ he1
  obtain ⟨i1, h1⟩ := gaa_some_of_hasElig today st hc he
  obtain ⟨i2, h2⟩ := gaa_some_of_hasElig today _ hc1 he1
  obtain ⟨i3, h3⟩ := gaa_some_of_hasElig today _ hc2 he2
  have s1 : shortenLoop today url (fun k => Response.http 500 (b k)) 3 st 0 =
      shortenLoop today url (fun k => Response.http 500 (b k)) 2
        (get_available_account today st).2.1 1 :=
    shortenLoop_retry_err today url (fun k => Response.http 500 (b k)) 2 st 0
      i1 500 (b 0) h1 rfl (by decide) (by decide) (by decide)
  have s2 : shortenLoop today url (fun k => Response.http 500 (b k)) 2
      (get_available_account today st).2.1 1 =
      shortenLoop today url (fun k => Response.http 500 (b k)) 1
        (get_available_account today (get_available_account today st).2.1).2.1 2 :=
    shortenLoop_retry_err today url (fun k => Response.http 500 (b k)) 1 _ 1
      i2 500 (b 1) h2 rfl (by decide) (by decide) (by decide)
  have s3 := shortenLoop_last_err today url (fun k => Response.http 500 (b k))
    (get_available_account today (get_available_account today st).2.1).2.1 2
    i3 500 (b 2) h3 rfl (by decide) (by decide)
  have hrun : shorten_url today (fun k => Response.http 500 (b k)) url st 0 =
      shortenLoop today url (fun k => Response.http 500 (b k)) 1
        (get_available_account today (get_available_account today st).2.1).2.1 2 := by
    rw [shorten_url, s1, s2]
  rw [hrun, s3]
  refine ⟨rfl, rfl, rfl, ⟨i3, ?_, ?_⟩⟩
  · exact h3
  · show ((get_available_account today _).2.1.accounts.getD i3 default).username = _
    rw [gaa_username, gaa_username, gaa_username]

theorem c5_witness :
    (shorten_url d0 (fun _ => Response.http 500 Body.malformed) "https://a.io"
      pool1 0).1.error_message = "API Error: 500" ∧
    (shorten_url d0 (fun _ => Response.http 500 Body.malformed) "https://a.io"
      pool1 0).2.2 = 3 :=
  ⟨(c5_attempt_budget_500 d0 "https://a.io" (fun _ => Body.malformed) pool1
      (by decide) ⟨0, by decide, by decide⟩).2.1,
   (c5_attempt_budget_500 d0 "https://a.io" (fun _ => Body.malformed) pool1
      (by decide) ⟨0, by decide, by decide⟩).2.2.1⟩

/-- Claim C1, evaluated at the failing input: with one fresh account and an
upstream that answers HTTP 200 with a JSON body lacking the link key, the
increment at src/app.py line 69 runs before the link extraction at line 70
fails, so the usage counter climbs to 3 across the three attempts while
the call returns a failure outcome — contradicting the claim that the
counter changes only on a success outcome. -/
theorem c1_counter_bumped_without_success :
    (shorten_url d0 (fun _ => Response.http 200 Body.noLink) "https://example.com"
      pool1 0).1.success = false ∧
    ((shorten_url d0 (fun _ => Response.http 200 Body.noLink) "https://example.com"
      pool1 0).2.1.accounts.getD 0 default).current_count = 3 ∧
    (pool1.accounts.getD 0 default).current_count = 0 := by decide

/-- Claim C2 counterexample: with one eligible account and an upstream that
always responds 429, the third (final) attempt also receives 429, yet the
returned errorMessage is "Max retries exceeded" — not the status-describing
message, and not reported identically to other non-2xx statuses on the last
attempt (always-500 yields "API Error: 500" with the username); the
accountUsed is empty as well. -/
theorem c2_counterexample :
    (shorten_url d0 (fun _ => Response.http 429 Body.malformed) "https://example.com"
      pool1 0).1.error_message = "Max retries exceeded" ∧
    (shorten_url d0 (fun _ => Response.http 429 Body.malformed) "https://example.com"
      pool1 0).1.error_message ≠ "API Error: 429" ∧
    (shorten_url d0 (fun _ => Response.http 429 Body.malformed) "https://example.com"
      pool1 0).1.account_used = "" ∧
    (shorten_url d0 (fun _ => Response.http 500 Body.malformed) "https://example.com"
      pool1 0).1.error_message = "API Error: 500" ∧
    (shorten_url d0 (fun _ => Response.http 500 Body.malformed) "https://example.com"
      pool1 0).1.account_used = "alice" := by decide

/-- Claim C2 (amended): when the upstream responds HTTP 429 on the final
(third) attempt, the loop consumes the attempt and falls through, so the
call returns failure with errorMessage "Max retries exceeded" and empty
accountUsed — unlike other non-2xx statuses on the last attempt, which
return "API Error: <status>" with the last account's username. -/
theorem c2_terminal_429_falls_through (today url : String)
    (upstream : Nat → Response) (st : ManagerState) (calls : Nat) (b : Body)
    (hc : Inv st) (he : hasElig today st)
    (hup : upstream calls = Response.http 429 b) :
    (shortenLoop today url upstream 1 st calls).1.error_message =
      "Max retries exceeded" ∧
    (shortenLoop today url upstream 1 st calls).1.account_used = "" ∧
    (shortenLoop today url upstream 1 st calls).1.success = false ∧
    (shortenLoop today url upstream 1 st calls).2.2 = calls + 1 := by
  obtain ⟨i, hi⟩ := gaa_some_of_hasElig today st hc he
  have h : shortenLoop today url upstream 1 st calls =
      shortenLoop today url upstream 0 (get_available_account today st).2.1
        (calls+1) :=
    shortenLoop_429 today url upstream 0 st calls i b hi hup
  rw [h]
  exact ⟨rfl, rfl, rfl, rfl⟩

theorem c2_witness :
    (shortenLoop d0 "https://example.com"
      (fun _ => Response.http 429 Body.malformed) 1 pool1 2).1.error_message =
      "Max retries exceeded" ∧
    (shortenLoop d0 "https://example.com"
      (fun _ => Response.http 429 Body.malformed) 1 pool1 2).1.account_used = "" :=
  ⟨(c2_terminal_429_falls_through d0 "https://example.com"
      (fun _ => Response.http 429 Body.malformed) pool1 2 Body.malformed
      (by decide) ⟨0, by decide, by decide⟩ rfl).1,
   (c2_terminal_429_falls_through d0 "https://example.com"
      (fun _ => Response.http 429 Body.malformed) pool1 2 Body.malformed
      (by decide) ⟨0, by decide, by decide⟩ rfl).2.1⟩

/-- Claim C3 counterexample: with one eligible account and an upstream that
always responds 429, the very first selection succeeds (and three upstream
calls are made, each preceded by a successful selection), yet the outcome
carries an empty accountUsed. -/
theorem c3_counterexample :
    (iterSelect d0 pool1 0).1 = some 0 ∧
    (shorten_url d0 (fun _ => Response.http 429 Body.noLink) "https://example.com"
      pool1 0).2.2 = 3 ∧
    (shorten_url d0 (fun _ => Response.http 429 Body.noLink) "https://example.com"
      pool1 0).1.account_used = "" := by decide

/-- Claim C3 (amended): an outcome with empty accountUsed is produced not
only when no account was selected but also by the retries-exhausted
fall-through (for example a 429 on the final attempt); precisely, in a pool
whose accounts all carry non-empty usernames, any outcome with empty
accountUsed is either the "No available accounts" outcome or the
"Max retries exceeded" outcome. -/
theorem c3_empty_account_used_classified (today url : String)
    (upstream : Nat → Response) (fuel : Nat) (st : ManagerState) (calls : Nat)
    (hc : Inv st) (hu : UserOK st)
    (h : (shortenLoop today url upstream fuel st calls).1.account_used = "") :
    (shortenLoop today url upstream fuel st calls).1.error_message =
      "No available accounts" ∨
    (shortenLoop today url upstream fuel st calls).1.error_message =
      "Max retries exceeded" :=
  ((shortenLoop_master today url upstream fuel st calls hc).2 hu).2 h

theorem c3_witness :
    (shortenLoop d0 "https://example.com"
      (fun _ => Response.http 429 Body.malformed) 3 pool1 0).1.error_message =
      "No available accounts" ∨
    (shortenLoop d0 "https://example.com"
      (fun _ => Response.http 429 Body.malformed) 3 pool1 0).1.error_message =
      "Max retries exceeded" :=
  c3_empty_account_used_classified d0 "https://example.com"
    (fun _ => Response.http 429 Body.malformed) 3 pool1 0
    (by decide) (by decide) (by decide)

/-- Claim C9: the bulk variant applies `shorten` to each URL in input
order, never short-circuits, preserves input order in the output (the k-th
result is for the k-th input URL), and its aggregate counts satisfy
total = number of inputs, successful = number of success outcomes, and
failed = total minus successful. -/
theorem c9_bulk_independent_ordered (today : String) (upstream : Nat → Response)
    (urls : List String) (st : ManagerState) (calls : Nat) :
    (shorten_bulk today upstream urls st calls).1.length = urls.length ∧
    (∀ k, k < urls.length →
      ((shorten_bulk today upstream urls st calls).1.getD k default).original_url
        = normalizeUrl (urls.getD k "")) ∧
    (bulkSummary (shorten_bulk today upstream urls st calls).1).total
      = urls.length ∧
    (bulkSummary (shorten_bulk today upstream urls st calls).1).successful
      = ((shorten_bulk today upstream urls st calls).1.filter
          (fun r => r.success)).length ∧
    (bulkSummary (shorten_bulk today upstream urls st calls).1).failed
      = (bulkSummary (shorten_bulk today upstream urls st calls).1).total -
        (bulkSummary (shorten_bulk today upstream urls st calls).1).successful := by
  refine ⟨shorten_bulk_length today upstream urls st calls, ?_, ?_, rfl, rfl⟩
  · intro k hk
    exact shorten_bulk_original today upstream urls st calls k hk
  · show (shorten_bulk today upstream urls st calls).1.length = urls.length
    exact shorten_bulk_length today upstream urls st calls

theorem c9_witness :
    ((shorten_bulk d0
        (fun k => if k = 0 then Response.http 201 (Body.withLink "https://bit.ly/ab")
                  else Response.http 500 Body.malformed)
        ["example.com", "https://a.io"] pool1 0).1.getD 0 default).original_url
      = normalizeUrl "example.com" ∧
    (shorten_bulk d0
        (fun k => if k = 0 then Response.http 201 (Body.withLink "https://bit.ly/ab")
                  else Response.http 500 Body.malformed)
        ["example.com", "https://a.io"] pool1 0).1.length = 2 :=
  ⟨(c9_bulk_independent_ordered d0
      (fun k => if k = 0 then Response.http 201 (Body.withLink "https://bit.ly/ab")
                else Response.http 500 Body.malformed)
      ["example.com", "https://a.io"] pool1 0).2.1 0 (by decide),
   (c9_bulk_independent_ordered d0
      (fun k => if k = 0 then Response.http 201 (Body.withLink "https://bit.ly/ab")
                else Response.http 500 Body.malformed)
      ["example.com", "https://a.io"] pool1 0).1⟩

end UrlShortener
